import Mathlib

/-!
# Link endpoint resolution (package `links`)

A shallow embedding of `links/endpoint_raw.go` together with the pieces of the
package and of the Go standard library that `EndpointRaw.Resolve` relies on.

* Go strings are byte sequences: `goBytes` gives the UTF-8 bytes of a string.
* Go interface values (`Node`, `Link`, `Endpoint`) may be nil: they are `Option`s.
* A call returns `(Endpoint, error)` or panics: `Outcome`.
* The side effects (`Node.AddEndpoint`, the entropy source behind the MAC
  generator, allocation of a link object) are explicit in `World`.
-/

set_option autoImplicit false

namespace Links

/-! ## Go values -/

/-- A Go `net.HardwareAddr`: a sequence of octets. -/
abbrev HardwareAddr := List Nat

/-- The Go `error` values that resolution produces. -/
inductive GoError where
  /-- An error made by `fmt.Errorf` or `errors.New`: only a message. -/
  | errorString (msg : String)
  /-- A `*net.AddrError` with its fields `Err` and `Addr`. -/
  | addrError (err : String) (addr : String)
  deriving DecidableEq, Repr

/-- The method `Error()` of the error values. -/
def GoError.Error : GoError → String
  | .errorString msg => msg
  | .addrError err addr => if addr = "" then err else "address " ++ addr ++ ": " ++ err

/-- The UTF-8 encoding of one code point, as Go stores it in a string. -/
def utf8Bytes (c : Char) : List Nat :=
  let v := c.toNat
  if v < 0x80 then [v]
  else if v < 0x800 then [0xC0 + v / 64, 0x80 + v % 64]
  else if v < 0x10000 then [0xE0 + v / 4096, 0x80 + (v / 64) % 64, 0x80 + v % 64]
  else [0xF0 + v / 262144, 0x80 + (v / 4096) % 64, 0x80 + (v / 64) % 64, 0x80 + v % 64]

/-- The bytes of a Go string; `len(s)` is the length of this list. -/
def goBytes (s : String) : List Nat :=
  s.data.flatMap utf8Bytes

/-! ## `net.ParseMAC` (Go standard library, package `net`) -/

/-- The constant `big` of package `net`: the overflow bound of `xtoi`. -/
def big : Nat := 0xFFFFFF

/-- The value of one hexadecimal digit, as the three ranges tested by `xtoi`. -/
def hexVal (c : Nat) : Option Nat :=
  if 48 ≤ c ∧ c ≤ 57 then some (c - 48)
  else if 97 ≤ c ∧ c ≤ 102 then some (c - 97 + 10)
  else if 65 ≤ c ∧ c ≤ 70 then some (c - 65 + 10)
  else none

/-- The loop of `xtoi`: `n` is the number read so far, `i` the index reached. -/
def xtoiLoop : List Nat → Nat → Nat → Nat × Nat × Bool
  | [], n, i => if i = 0 then (0, i, false) else (n, i, true)
  | c :: rest, n, i =>
    match hexVal c with
    | some d =>
      if n * 16 + d ≥ big then (0, i, false) else xtoiLoop rest (n * 16 + d) (i + 1)
    | none => if i = 0 then (0, i, false) else (n, i, true)

/-- Go `xtoi`: hexadecimal to integer; number, characters consumed, success. -/
def xtoi (s : List Nat) : Nat × Nat × Bool :=
  xtoiLoop s 0 0

/-- Go `xtoi2`: the next two hex digits of `s` as a byte; when `s` is longer than
two bytes its third byte must be `e`. `ParseMAC` only calls it on at least two
bytes, so `s[:2]` is `take 2`. -/
def xtoi2 (s : List Nat) (e : Nat) : Nat × Bool :=
  if s.length > 2 ∧ s.getD 2 0 ≠ e then (0, false)
  else
    match xtoi (s.take 2) with
    | (n, ei, ok) => (n % 256, ok && decide (ei = 2))

/-- The loop of the `:` and `-` forms: `k` octets are left to read, the next one
at offset `x`. -/
def colonLoop (s : List Nat) (e : Nat) : Nat → Nat → Option (List Nat)
  | _, 0 => some []
  | x, k + 1 =>
    match xtoi2 (s.drop x) e with
    | (b, true) => (colonLoop s e (x + 3) k).map (fun hw => b :: hw)
    | (_, false) => none

/-- The loop of the dotted form: `k` groups of two octets are left to read, the
next one at offset `x`. -/
def dotLoop (s : List Nat) (e : Nat) : Nat → Nat → Option (List Nat)
  | _, 0 => some []
  | x, k + 1 =>
    match xtoi2 ((s.drop x).take 2) 0 with
    | (b0, true) =>
      match xtoi2 (s.drop (x + 2)) e with
      | (b1, true) => (dotLoop s e (x + 5) k).map (fun hw => b0 :: b1 :: hw)
      | (_, false) => none
    | (_, false) => none

/-- Go `net.ParseMAC`: an IEEE 802 MAC-48, EUI-48, EUI-64 or 20-octet IP over
InfiniBand link-layer address, in colon, hyphen or dotted form. -/
def ParseMAC (str : String) : Except GoError HardwareAddr :=
  let s := goBytes str
  let fail : Except GoError HardwareAddr :=
    .error (.addrError "invalid MAC address" str)
  if s.length < 14 then fail
  else if s.getD 2 0 = 58 ∨ s.getD 2 0 = 45 then
    if (s.length + 1) % 3 ≠ 0 then fail
    else
      let n := (s.length + 1) / 3
      if n ≠ 6 ∧ n ≠ 8 ∧ n ≠ 20 then fail
      else
        match colonLoop s (s.getD 2 0) 0 n with
        | some hw => .ok hw
        | none => fail
  else if s.getD 4 0 = 46 then
    if (s.length + 1) % 5 ≠ 0 then fail
    else
      let n := 2 * (s.length + 1) / 5
      if n ≠ 6 ∧ n ≠ 8 ∧ n ≠ 20 then fail
      else
        match dotLoop s (s.getD 4 0) 0 (n / 2) with
        | some hw => .ok hw
        | none => fail
  else fail

/-! ## Data model of package `links` -/

/-- Modelled from the spec: the declaration of `LinkEndpointType` is not under
src/. The backend kinds a node can declare, as the data model lists them. -/
inductive LinkEndpointType where
  | Bridge
  | Host
  | Veth
  | MacVlan
  | MgmtNet
  deriving DecidableEq, Repr

/-- The constant the dispatch of `Resolve` names for bridge nodes. -/
abbrev LinkEndpointTypeBridge : LinkEndpointType := .Bridge

/-- The constant the dispatch of `Resolve` names for host nodes. -/
abbrev LinkEndpointTypeHost : LinkEndpointType := .Host

/-- The constant the dispatch of `Resolve` names for veth nodes. -/
abbrev LinkEndpointTypeVeth : LinkEndpointType := .Veth

/-- A node behind the `Node` interface: `addr` is the identity of the object,
the other fields are what `GetShortName` and `GetLinkEndpointType` return. -/
structure Node where
  addr : Nat
  shortName : String
  linkEndpointType : LinkEndpointType
  deriving DecidableEq, Repr

/-- The method `GetLinkEndpointType` of the node interface. -/
def Node.GetLinkEndpointType (n : Node) : LinkEndpointType :=
  n.linkEndpointType

/-- The method `GetShortName` of the node interface. -/
def Node.GetShortName (n : Node) : String :=
  n.shortName

/-- A non-nil `Link` interface value, as an endpoint refers back to it: the
identity of the link object. -/
structure LinkRef where
  addr : Nat
  deriving DecidableEq, Repr

/-- The struct `EndpointGeneric`: the fields `Resolve` and the tests use. `Node`
and `Link` are interface values and may be nil. -/
structure EndpointGeneric where
  Node : Option Node
  IfaceName : String
  Link : Option LinkRef
  MAC : HardwareAddr
  deriving DecidableEq, Repr

/-- Modelled from the spec: `NewEndpointGeneric` is not under src/. "Generic
endpoint construction: builds a common representation" carrying the node and the
interface name; the link and the MAC are left at their zero values, `Resolve`
sets them afterwards. -/
def NewEndpointGeneric (node : Option Node) (iface : String) : EndpointGeneric :=
  { Node := node, IfaceName := iface, Link := none, MAC := [] }

/-- A non-nil `Endpoint` interface value: one of the concrete endpoint structs
that `Resolve` builds, each embedding an `EndpointGeneric`. -/
inductive Endpoint where
  | EndpointBridge (EndpointGeneric : EndpointGeneric)
  | EndpointHost (EndpointGeneric : EndpointGeneric)
  | EndpointVeth (EndpointGeneric : EndpointGeneric)
  deriving DecidableEq, Repr

/-- The embedded `EndpointGeneric` of an endpoint. -/
def Endpoint.generic : Endpoint → EndpointGeneric
  | .EndpointBridge g => g
  | .EndpointHost g => g
  | .EndpointVeth g => g

/-- The raw (string) representation of an endpoint in the topology file. -/
structure EndpointRaw where
  Node : String
  Iface : String
  MAC : String
  deriving DecidableEq, Repr

/-- Creates a new `EndpointRaw`. -/
def NewEndpointRaw (node nodeIf Mac : String) : EndpointRaw :=
  { Node := node, Iface := nodeIf, MAC := Mac }

/-- The struct `ResolveParams`: `Nodes` is a Go map from node name to `Node`
interface value, kept as an association list read by `List.lookup`. -/
structure ResolveParams where
  Nodes : List (String × Option Node)
  deriving DecidableEq, Repr

/-- An organizationally unique identifier: the three leading octets of a MAC. -/
structure OUI where
  b0 : Fin 256
  b1 : Fin 256
  b2 : Fin 256
  deriving DecidableEq, Repr

/-! ## Effects -/

/-- What resolution reads and writes outside its arguments. -/
structure World where
  /-- The coming draws of the entropy source of the MAC generator: three octets,
  or `none` when the source fails. -/
  entropy : List (Option (Nat × Nat × Nat))
  /-- The calls of `AddEndpoint` so far, oldest first: the node and the argument. -/
  added : List (Node × Option Endpoint)
  /-- The identity the next allocated link object gets. -/
  nextLink : Nat
  deriving DecidableEq, Repr

/-- The method `AddEndpoint` of the node interface: the node keeps the endpoint. -/
def Node.AddEndpoint (n : Node) (e : Option Endpoint) (w : World) : World :=
  { w with added := w.added ++ [(n, e)] }

/-- The endpoints registered with a node, oldest first. -/
def World.endpointsOf (w : World) (n : Node) : List (Option Endpoint) :=
  (w.added.filter (fun c => decide (c.1 = n))).map (fun c => c.2)

/-- Modelled from the spec: `utils.GenMac` is not under src/. "Generate a fresh
locally-administered MAC using the system's reserved OUI prefix": the three
octets of the OUI followed by three drawn octets; "the MAC generator fails (e.g.
entropy source)" when the source gives nothing. -/
def GenMac (oui : OUI) (w : World) : Except GoError HardwareAddr × World :=
  match w.entropy with
  | [] => (.error (.errorString "MAC generation failed"), w)
  | none :: rest => (.error (.errorString "MAC generation failed"), { w with entropy := rest })
  | some (r0, r1, r2) :: rest =>
    (.ok [oui.b0.val, oui.b1.val, oui.b2.val, r0 % 256, r1 % 256, r2 % 256],
      { w with entropy := rest })

/-- How a call of `Resolve` ends: it returns its pair of results, or panics. -/
inductive Outcome where
  | returned (e : Option Endpoint) (err : Option GoError)
  | panicked
  deriving DecidableEq, Repr

/-! ## `EndpointRaw.Resolve` -/

/-- The kind dispatch of `Resolve`: the `switch` on `GetLinkEndpointType`, which
has no `default`, so `e` keeps its zero value nil for any other kind. -/
def dispatch (t : LinkEndpointType) (genericEndpoint : EndpointGeneric) : Option Endpoint :=
  if t = LinkEndpointTypeBridge then some (.EndpointBridge genericEndpoint)
  else if t = LinkEndpointTypeHost then some (.EndpointHost genericEndpoint)
  else if t = LinkEndpointTypeVeth then some (.EndpointVeth genericEndpoint)
  else none

/-- The method `Resolve` of `EndpointRaw`. `ClabOUI` is the package constant
passed to the generator; its declaration is not under src/, it is a parameter. -/
def EndpointRaw.Resolve (ClabOUI : OUI) (er : EndpointRaw) (params : ResolveParams)
    (l : Option LinkRef) (w : World) : Outcome × World :=
  -- check if the referenced node does exist
  match params.Nodes.lookup er.Node with
  | none => (.returned none (some (.errorString ("unable to find node " ++ er.Node))), w)
  | some node =>
    let genericEndpoint := { NewEndpointGeneric node er.Iface with Link := l }
    let mac : Except GoError HardwareAddr × World :=
      if er.MAC = "" then GenMac ClabOUI w else (ParseMAC er.MAC, w)
    match mac with
    | (.error err, w1) => (.returned none (some err), w1)
    | (.ok m, w1) =>
      let genericEndpoint := { genericEndpoint with MAC := m }
      -- a method call on a nil interface value panics
      match node with
      | none => (.panicked, w1)
      | some n =>
        let e := dispatch n.GetLinkEndpointType genericEndpoint
        -- also add the endpoint to the node
        (.returned e none, n.AddEndpoint e w1)

/-! ## Raw and resolved veth links -/

/-- A value of a `map[string]any` entry, as far as the topology file gives one. -/
inductive AnyVal where
  | str (s : String)
  | int (i : Int)
  | bool (b : Bool)
  deriving DecidableEq, Repr

/-- The struct `LinkCommonParams`, the two maps kept as association lists. -/
structure LinkCommonParams where
  MTU : Int
  Labels : List (String × String)
  Vars : List (String × AnyVal)
  deriving DecidableEq, Repr

/-- The struct `LinkVEthRaw`, as the tests build it. -/
structure LinkVEthRaw where
  LinkCommonParams : LinkCommonParams
  Endpoints : List EndpointRaw
  deriving DecidableEq, Repr

/-- The struct `LinkBriefRaw`, as the tests expect it. -/
structure LinkBriefRaw where
  Endpoints : List String
  LinkCommonParams : LinkCommonParams
  deriving DecidableEq, Repr

/-- The struct `LinkVEth`, as the tests expect it; `self` is the identity of the
link object, which its endpoints refer back to. -/
structure LinkVEth where
  self : LinkRef
  LinkCommonParams : LinkCommonParams
  Endpoints : List (Option Endpoint)
  deriving DecidableEq, Repr

/-- Modelled from the spec: `LinkVEthRaw.ToLinkBriefRaw` is not under src/ (only
its test is). "Renders each endpoint as `<node>:<interface>` and preserves
`LinkCommonParams` verbatim", appending one string per endpoint in order. -/
def LinkVEthRaw.ToLinkBriefRaw (r : LinkVEthRaw) : LinkBriefRaw :=
  { Endpoints := r.Endpoints.foldl (fun acc e => acc ++ [e.Node ++ ":" ++ e.Iface]) [],
    LinkCommonParams := r.LinkCommonParams }

/-- How a call of `LinkVEthRaw.Resolve` ends. -/
inductive LinkOutcome where
  | returned (l : Option LinkVEth) (err : Option GoError)
  | panicked
  deriving DecidableEq, Repr

/-- The endpoint loop of `LinkVEthRaw.Resolve`: "resolve each contained
`EndpointRaw` in declaration order, appending each successfully resolved
Endpoint to the Link's endpoint sequence"; it "aborts and returns the first
resolution error from any endpoint" and discards the partially built link. -/
def LinkVEthRaw.resolveLoop (ClabOUI : OUI) (params : ResolveParams) :
    LinkVEth → List EndpointRaw → World → LinkOutcome × World
  | l, [], w => (.returned (some l) none, w)
  | l, epr :: rest, w =>
    match epr.Resolve ClabOUI params (some l.self) w with
    | (.panicked, w1) => (.panicked, w1)
    | (.returned _ (some err), w1) => (.returned none (some err), w1)
    | (.returned ep none, w1) =>
      LinkVEthRaw.resolveLoop ClabOUI params { l with Endpoints := l.Endpoints ++ [ep] } rest w1

/-- Modelled from the spec: `LinkVEthRaw.Resolve` is not under src/ (only its
test is). "Construct the empty typed Link, then resolve each contained
`EndpointRaw` in declaration order", each endpoint's back-reference being the new
link. -/
def LinkVEthRaw.Resolve (ClabOUI : OUI) (r : LinkVEthRaw) (params : ResolveParams)
    (w : World) : LinkOutcome × World :=
  let l : LinkVEth :=
    { self := { addr := w.nextLink }, LinkCommonParams := r.LinkCommonParams, Endpoints := [] }
  LinkVEthRaw.resolveLoop ClabOUI params l r.Endpoints { w with nextLink := w.nextLink + 1 }

/-! ## Sequences of resolutions -/

/-- One call of `EndpointRaw.Resolve`: the receiver and the two arguments. -/
structure Call where
  er : EndpointRaw
  params : ResolveParams
  l : Option LinkRef
  deriving DecidableEq, Repr

/-- Runs the calls one after the other on the same world, oldest first, and
collects how each one ended. -/
def runCalls (ClabOUI : OUI) : List Call → World → List Outcome × World
  | [], w => ([], w)
  | c :: rest, w =>
    match c.er.Resolve ClabOUI c.params c.l w with
    | (o, w1) =>
      match runCalls ClabOUI rest w1 with
      | (os, w2) => (o :: os, w2)

/-- Whether a call was a successful resolution against node `n`: it looked up
`n` and returned a nil error. -/
def resolvedAgainst (n : Node) (c : Call) (o : Outcome) : Bool :=
  match o with
  | .returned _ none => decide (c.params.Nodes.lookup c.er.Node = some (some n))
  | _ => false

/-- The number of successful resolutions against node `n` among the calls. -/
def countResolved (n : Node) : List Call → List Outcome → Nat
  | c :: cs, o :: os => (if resolvedAgainst n c o then 1 else 0) + countResolved n cs os
  | _, _ => 0

/-! ## Fixtures of `link_veth_test.go` -/

/-- The mock node `fn1` of `TestLinkVEthRaw_Resolve`. -/
def fn1 : Node := { addr := 1, shortName := "node1", linkEndpointType := LinkEndpointTypeVeth }

/-- The mock node `fn2` of `TestLinkVEthRaw_Resolve`. -/
def fn2 : Node := { addr := 2, shortName := "node2", linkEndpointType := LinkEndpointTypeVeth }

/-- The node registry of `TestLinkVEthRaw_Resolve`. -/
def testParams : ResolveParams := { Nodes := [("node1", some fn1), ("node2", some fn2)] }

/-- The common parameters of the raw link of the tests. -/
def testCommon : LinkCommonParams :=
  { MTU := 1500, Labels := [("foo", "bar")], Vars := [("foo", .str "bar")] }

/-- The raw link of `TestLinkVEthRaw_ToLinkBriefRaw` and `TestLinkVEthRaw_Resolve`. -/
def testRaw : LinkVEthRaw :=
  { LinkCommonParams := testCommon,
    Endpoints := [NewEndpointRaw "node1" "eth1" "", NewEndpointRaw "node2" "eth2" ""] }

/-- A world whose entropy source gives two draws and then fails. -/
def testWorld : World :=
  { entropy := [some (1, 2, 3), some (4, 5, 6), none], added := [], nextLink := 0 }

/-- An OUI with the locally-administered bit set, for the concrete evaluations. -/
def testOUI : OUI := { b0 := 0xaa, b1 := 0xc1, b2 := 0xab }

/-- A node of a backend kind that the dispatch of `Resolve` has no case for. -/
def macvlanNode : Node := { addr := 3, shortName := "node3", linkEndpointType := .MacVlan }

/-- Modelled from the spec: the declaration of `LinkType` is not under src/ (the
test names only `LinkTypeVEth`). The "link-kind tag", one per kind of software
link the spec lists: veth pairs, bridges, host-interface bindings and
management-network attachments. -/
inductive LinkType where
  | VEth
  | Bridge
  | Host
  | MgmtNet
  deriving DecidableEq, Repr

/-- The tag that `TestLinkVEthRaw_GetType` expects of a raw veth link. -/
abbrev LinkTypeVEth : LinkType := .VEth

/-- Modelled from the spec: `LinkVEthRaw.GetType` is not under src/ (only its
test is). "Returns the link-kind tag for a given raw or resolved link", "a
compile-time-constant mapping from concrete type to tag, never inferred at
runtime from shape". -/
def LinkVEthRaw.GetType (_r : LinkVEthRaw) : LinkType :=
  LinkTypeVEth

/-- The raw link of `TestLinkVEthRaw_GetType`: no parameters and no endpoints. -/
def testEmptyRaw : LinkVEthRaw :=
  { LinkCommonParams := { MTU := 0, Labels := [], Vars := [] }, Endpoints := [] }

/-- The endpoint that resolving `node2`/`eth2` on link 7 gives in `testWorld`. -/
def testEndpoint : Endpoint :=
  .EndpointVeth
    { Node := some fn2, IfaceName := "eth2", Link := some { addr := 7 },
      MAC := [170, 193, 171, 1, 2, 3] }

deriving instance DecidableEq for Except

/-! ## Unfolding `Resolve` -/

theorem ParseMAC_empty : ParseMAC "" = .error (.addrError "invalid MAC address" "") := by
  decide

theorem Resolve_of_absent (ClabOUI : OUI) (er : EndpointRaw) (params : ResolveParams)
    (l : Option LinkRef) (w : World) (h : params.Nodes.lookup er.Node = none) :
    er.Resolve ClabOUI params l w =
      (.returned none (some (.errorString ("unable to find node " ++ er.Node))), w) := by
  simp [EndpointRaw.Resolve, h]

theorem Resolve_of_parsed (ClabOUI : OUI) (er : EndpointRaw) (params : ResolveParams)
    (l : Option LinkRef) (w : World) (n : Node) (m : HardwareAddr)
    (hn : params.Nodes.lookup er.Node = some (some n)) (hne : er.MAC ≠ "")
    (hm : ParseMAC er.MAC = .ok m) :
    er.Resolve ClabOUI params l w =
      (.returned (dispatch n.GetLinkEndpointType
          { Node := some n, IfaceName := er.Iface, Link := l, MAC := m }) none,
        n.AddEndpoint (dispatch n.GetLinkEndpointType
          { Node := some n, IfaceName := er.Iface, Link := l, MAC := m }) w) := by
  simp [EndpointRaw.Resolve, hn, hne, hm, NewEndpointGeneric]

theorem Resolve_of_generated (ClabOUI : OUI) (er : EndpointRaw) (params : ResolveParams)
    (l : Option LinkRef) (w w1 : World) (n : Node) (m : HardwareAddr)
    (hn : params.Nodes.lookup er.Node = some (some n)) (he : er.MAC = "")
    (hm : GenMac ClabOUI w = (.ok m, w1)) :
    er.Resolve ClabOUI params l w =
      (.returned (dispatch n.GetLinkEndpointType
          { Node := some n, IfaceName := er.Iface, Link := l, MAC := m }) none,
        n.AddEndpoint (dispatch n.GetLinkEndpointType
          { Node := some n, IfaceName := er.Iface, Link := l, MAC := m }) w1) := by
  simp [EndpointRaw.Resolve, hn, he, hm, NewEndpointGeneric]

theorem Resolve_of_mac_error (ClabOUI : OUI) (er : EndpointRaw) (params : ResolveParams)
    (l : Option LinkRef) (w w1 : World) (node : Option Node) (err : GoError)
    (hn : params.Nodes.lookup er.Node = some node)
    (hm : (if er.MAC = "" then GenMac ClabOUI w else (ParseMAC er.MAC, w)) = (.error err, w1)) :
    er.Resolve ClabOUI params l w = (.returned none (some err), w1) := by
  simp only [EndpointRaw.Resolve, hn, hm]

theorem lookup_none_of_not_key (params : ResolveParams) (k : String)
    (h : k ∉ params.Nodes.map Prod.fst) : params.Nodes.lookup k = none := by
  rw [List.lookup_eq_none_iff]
  intro p hp
  have hne : k ≠ p.1 := fun hk => h (hk ▸ List.mem_map_of_mem Prod.fst hp)
  simpa using hne

/-! ## What `ParseMAC` returns -/

theorem colonLoop_length (s : List Nat) (e : Nat) :
    ∀ (k x : Nat) (hw : List Nat), colonLoop s e x k = some hw → hw.length = k := by
  intro k
  induction k with
  | zero =>
    intro x hw h
    simp [colonLoop] at h
    simp [← h]
  | succ k ih =>
    intro x hw h
    unfold colonLoop at h
    split at h
    · simp only [Option.map_eq_some'] at h
      obtain ⟨tl, htl, rfl⟩ := h
      simp [ih _ _ htl]
    · cases h

theorem dotLoop_length (s : List Nat) (e : Nat) :
    ∀ (k x : Nat) (hw : List Nat), dotLoop s e x k = some hw → hw.length = 2 * k := by
  intro k
  induction k with
  | zero =>
    intro x hw h
    simp [dotLoop] at h
    simp [← h]
  | succ k ih =>
    intro x hw h
    unfold dotLoop at h
    split at h
    · split at h
      · simp only [Option.map_eq_some'] at h
        obtain ⟨tl, htl, rfl⟩ := h
        simp [ih _ _ htl]
        omega
      · cases h
    · cases h

theorem ParseMAC_length (str : String) (hw : HardwareAddr) (h : ParseMAC str = .ok hw) :
    hw.length = 6 ∨ hw.length = 8 ∨ hw.length = 20 := by
  unfold ParseMAC at h
  simp only at h
  split_ifs at h with h1 h2 h3 h4 h5 h6 h7
  · split at h
    · rename_i tl htl
      cases h
      have hl := colonLoop_length _ _ _ _ _ htl
      omega
    · cases h
  · split at h
    · rename_i tl htl
      cases h
      have hl := dotLoop_length _ _ _ _ _ htl
      omega
    · cases h

theorem ParseMAC_error (str : String) (err : GoError) (h : ParseMAC str = .error err) :
    err = .addrError "invalid MAC address" str := by
  unfold ParseMAC at h
  simp only at h
  split_ifs at h <;> first
    | (cases h; rfl)
    | (split at h <;> first | (cases h; rfl) | cases h)

theorem ParseMAC_not_ok (str : String) (h : ∀ hw, ParseMAC str ≠ .ok hw) :
    ParseMAC str = .error (.addrError "invalid MAC address" str) := by
  cases hp : ParseMAC str with
  | error err => rw [ParseMAC_error str err hp]
  | ok hw => exact absurd hp (h hw)

/-! ## Effects of one call -/

theorem GenMac_added (oui : OUI) (w : World) : (GenMac oui w).2.added = w.added := by
  unfold GenMac
  split <;> rfl

theorem dispatch_generic (t : LinkEndpointType) (g : EndpointGeneric) (e : Endpoint)
    (h : dispatch t g = some e) : e.generic = g := by
  unfold dispatch at h
  split_ifs at h <;> cases h <;> rfl

theorem macStep_added (ClabOUI : OUI) (er : EndpointRaw) (w : World) :
    (if er.MAC = "" then GenMac ClabOUI w else (ParseMAC er.MAC, w)).2.added = w.added := by
  split_ifs
  · exact GenMac_added ClabOUI w
  · rfl

/-- Every way a call of `Resolve` can end, with the calls of `AddEndpoint` it
has made. -/
theorem Resolve_cases (ClabOUI : OUI) (er : EndpointRaw) (params : ResolveParams)
    (l : Option LinkRef) (w : World) :
    (params.Nodes.lookup er.Node = none ∧
      ∃ err, er.Resolve ClabOUI params l w = (.returned none (some err), w)) ∨
    (∃ node err w1, params.Nodes.lookup er.Node = some node ∧ w1.added = w.added ∧
      er.Resolve ClabOUI params l w = (.returned none (some err), w1)) ∨
    (∃ w1, params.Nodes.lookup er.Node = some none ∧ w1.added = w.added ∧
      er.Resolve ClabOUI params l w = (.panicked, w1)) ∨
    (∃ n m w1, params.Nodes.lookup er.Node = some (some n) ∧ w1.added = w.added ∧
      er.Resolve ClabOUI params l w =
        (.returned (dispatch n.GetLinkEndpointType
            { Node := some n, IfaceName := er.Iface, Link := l, MAC := m }) none,
          n.AddEndpoint (dispatch n.GetLinkEndpointType
            { Node := some n, IfaceName := er.Iface, Link := l, MAC := m }) w1)) := by
  cases hn : params.Nodes.lookup er.Node with
  | none => exact Or.inl ⟨rfl, _, Resolve_of_absent ClabOUI er params l w hn⟩
  | some node =>
    have hadd := macStep_added ClabOUI er w
    cases hm : (if er.MAC = "" then GenMac ClabOUI w else (ParseMAC er.MAC, w)) with
    | mk res w1 =>
      rw [hm] at hadd
      cases res with
      | error err =>
        exact Or.inr (Or.inl ⟨node, err, w1, rfl, hadd,
          Resolve_of_mac_error ClabOUI er params l w w1 node err hn hm⟩)
      | ok m =>
        cases node with
        | none =>
          refine Or.inr (Or.inr (Or.inl ⟨w1, rfl, hadd, ?_⟩))
          simp only [EndpointRaw.Resolve, hn, hm]
        | some n =>
          refine Or.inr (Or.inr (Or.inr ⟨n, m, w1, rfl, hadd, ?_⟩))
          simp only [EndpointRaw.Resolve, hn, hm, NewEndpointGeneric]

theorem endpointsOf_length_AddEndpoint (n k : Node) (e : Option Endpoint) (w : World) :
    ((k.AddEndpoint e w).endpointsOf n).length =
      (w.endpointsOf n).length + (if k = n then 1 else 0) := by
  unfold World.endpointsOf Node.AddEndpoint
  by_cases h : k = n <;> simp [List.filter_append, List.filter_cons, h]

theorem endpointsOf_length_of_added (n : Node) (w w1 : World) (h : w1.added = w.added) :
    (w1.endpointsOf n).length = (w.endpointsOf n).length := by
  unfold World.endpointsOf
  rw [h]

/-- One call changes the number of endpoints registered with `n` by one when it
is a successful resolution against `n`, and not at all otherwise. -/
theorem Resolve_count (ClabOUI : OUI) (c : Call) (w : World) (n : Node) :
    ((c.er.Resolve ClabOUI c.params c.l w).2.endpointsOf n).length =
      (w.endpointsOf n).length +
        (if resolvedAgainst n c (c.er.Resolve ClabOUI c.params c.l w).1 then 1 else 0) := by
  rcases Resolve_cases ClabOUI c.er c.params c.l w with
    ⟨_, err, h⟩ | ⟨node, err, w1, _, hadd, h⟩ | ⟨w1, _, hadd, h⟩ | ⟨k, m, w1, hk, hadd, h⟩
  · rw [h]
    simp [resolvedAgainst]
  · rw [h]
    simp [resolvedAgainst, endpointsOf_length_of_added n w w1 hadd]
  · rw [h]
    simp [resolvedAgainst, endpointsOf_length_of_added n w w1 hadd]
  · rw [h]
    simp only [resolvedAgainst, hk, endpointsOf_length_AddEndpoint,
      endpointsOf_length_of_added n w w1 hadd]
    by_cases hkn : k = n <;> simp [hkn]

theorem runCalls_cons (ClabOUI : OUI) (c : Call) (rest : List Call) (w : World) :
    runCalls ClabOUI (c :: rest) w =
      ((c.er.Resolve ClabOUI c.params c.l w).1 ::
          (runCalls ClabOUI rest (c.er.Resolve ClabOUI c.params c.l w).2).1,
        (runCalls ClabOUI rest (c.er.Resolve ClabOUI c.params c.l w).2).2) := by
  rfl

theorem foldl_brief (es : List EndpointRaw) (acc : List String) :
    es.foldl (fun acc e => acc ++ [e.Node ++ ":" ++ e.Iface]) acc =
      acc ++ es.map (fun e => e.Node ++ ":" ++ e.Iface) := by
  induction es generalizing acc with
  | nil => simp
  | cons e es ih => simp [ih]

/-! ## Node lookup -/

/-- C1: when `er.Node` is not a key of `params.Nodes`, `Resolve` returns a nil
endpoint together with an error whose message is `unable to find node` followed
by the node name, whatever the interface, the MAC and the link are; nothing is
registered and no entropy is drawn. -/
theorem resolve_node_not_found (ClabOUI : OUI) (er : EndpointRaw) (params : ResolveParams)
    (l : Option LinkRef) (w : World) (h : er.Node ∉ params.Nodes.map Prod.fst) :
    ∃ err, er.Resolve ClabOUI params l w = (.returned none (some err), w) ∧
      err.Error = "unable to find node " ++ er.Node := by
  refine ⟨.errorString ("unable to find node " ++ er.Node), ?_, rfl⟩
  exact Resolve_of_absent ClabOUI er params l w (lookup_none_of_not_key params er.Node h)

theorem resolve_node_not_found_witness :
    "node3" ∉ testParams.Nodes.map Prod.fst ∧
    ∃ err, (NewEndpointRaw "node3" "eth1" "not-a-mac").Resolve testOUI testParams none testWorld
        = (.returned none (some err), testWorld) ∧
      err.Error = "unable to find node " ++ "node3" :=
  ⟨by decide,
    resolve_node_not_found testOUI (NewEndpointRaw "node3" "eth1" "not-a-mac") testParams none
      testWorld (by decide)⟩

/-! ## Kind dispatch -/

/-- C2: evaluation of `Resolve` on a node whose backend kind is `MacVlan`, for
which the `switch` has no case: the call returns a nil endpoint with a nil error
and has called `AddEndpoint` on the node with that nil endpoint. -/
theorem resolve_unsupported_kind_returns_nil :
    (NewEndpointRaw "node3" "eth1" "").Resolve testOUI
        { Nodes := [("node3", some macvlanNode)] } none testWorld =
      (.returned none none,
        { entropy := [some (4, 5, 6), none], added := [(macvlanNode, none)], nextLink := 0 }) := by
  decide

/-- C3: for a node registered with backend kind `k` among Bridge, Host and Veth,
and a MAC that is empty with a successful generation or that parses, `Resolve`
returns a nil error and the endpoint variant of `k`: `EndpointBridge` for Bridge,
`EndpointHost` for Host, `EndpointVeth` for Veth. -/
theorem resolve_kind_dispatch (ClabOUI : OUI) (er : EndpointRaw) (params : ResolveParams)
    (l : Option LinkRef) (w : World) (n : Node) (k : LinkEndpointType)
    (hn : params.Nodes.lookup er.Node = some (some n))
    (hk : n.GetLinkEndpointType = k)
    (hsup : k = .Bridge ∨ k = .Host ∨ k = .Veth)
    (hmac : (er.MAC = "" ∧ ∃ m w1, GenMac ClabOUI w = (.ok m, w1)) ∨
      ∃ m, ParseMAC er.MAC = .ok m) :
    ∃ e g, (er.Resolve ClabOUI params l w).1 = .returned (some e) none ∧
      ((k = .Bridge ∧ e = .EndpointBridge g) ∨ (k = .Host ∧ e = .EndpointHost g) ∨
        (k = .Veth ∧ e = .EndpointVeth g)) := by
  have hmac2 : ∃ m w1, er.Resolve ClabOUI params l w =
      (.returned (dispatch n.GetLinkEndpointType
          { Node := some n, IfaceName := er.Iface, Link := l, MAC := m }) none, w1) := by
    rcases hmac with ⟨he, m, w1, hm⟩ | ⟨m, hm⟩
    · exact ⟨m, _, Resolve_of_generated ClabOUI er params l w w1 n m hn he hm⟩
    · have hne : er.MAC ≠ "" := by
        intro he
        rw [he, ParseMAC_empty] at hm
        cases hm
      exact ⟨m, _, Resolve_of_parsed ClabOUI er params l w n m hn hne hm⟩
  obtain ⟨m, w1, hres⟩ := hmac2
  rw [hres, hk]
  rcases hsup with h | h | h <;> subst h
  · exact ⟨_, _, rfl, Or.inl ⟨rfl, rfl⟩⟩
  · exact ⟨_, _, rfl, Or.inr (Or.inl ⟨rfl, rfl⟩)⟩
  · exact ⟨_, _, rfl, Or.inr (Or.inr ⟨rfl, rfl⟩)⟩

theorem resolve_kind_dispatch_witness :
    ∃ e g, ((NewEndpointRaw "node1" "eth1" "").Resolve testOUI testParams none testWorld).1
        = .returned (some e) none ∧
      ((LinkEndpointType.Veth = .Bridge ∧ e = .EndpointBridge g) ∨
        (LinkEndpointType.Veth = .Host ∧ e = .EndpointHost g) ∨
        (LinkEndpointType.Veth = .Veth ∧ e = .EndpointVeth g)) :=
  resolve_kind_dispatch testOUI (NewEndpointRaw "node1" "eth1" "") testParams none testWorld
    fn1 .Veth (by decide) (by decide) (by decide)
    (Or.inl ⟨by decide, [0xaa, 0xc1, 0xab, 1, 2, 3],
      { entropy := [some (4, 5, 6), none], added := [], nextLink := 0 }, by decide⟩)

/-! ## Declared MAC addresses -/

/-- C4: when the MAC string of the raw endpoint parses to `hw` and the node is
registered with a supported backend kind, `Resolve` returns a nil error and an
endpoint whose MAC is `hw`; the entropy source of the generator is left as it
was. -/
theorem resolve_mac_round_trip (ClabOUI : OUI) (er : EndpointRaw) (params : ResolveParams)
    (l : Option LinkRef) (w : World) (n : Node) (hw : HardwareAddr)
    (hn : params.Nodes.lookup er.Node = some (some n))
    (hsup : n.GetLinkEndpointType = .Bridge ∨ n.GetLinkEndpointType = .Host ∨
      n.GetLinkEndpointType = .Veth)
    (hm : ParseMAC er.MAC = .ok hw) :
    ∃ e, er.Resolve ClabOUI params l w = (.returned (some e) none, n.AddEndpoint (some e) w) ∧
      e.generic.MAC = hw ∧ (er.Resolve ClabOUI params l w).2.entropy = w.entropy := by
  have hne : er.MAC ≠ "" := by
    intro he
    rw [he, ParseMAC_empty] at hm
    cases hm
  rw [Resolve_of_parsed ClabOUI er params l w n hw hn hne hm]
  rcases hsup with h | h | h <;> (rw [h]; exact ⟨_, rfl, rfl, rfl⟩)

theorem resolve_mac_round_trip_witness :
    ∃ e, (NewEndpointRaw "node1" "eth1" "00:00:5e:00:53:01").Resolve testOUI testParams none
        testWorld = (.returned (some e) none, fn1.AddEndpoint (some e) testWorld) ∧
      e.generic.MAC = [0, 0, 94, 0, 83, 1] ∧
      ((NewEndpointRaw "node1" "eth1" "00:00:5e:00:53:01").Resolve testOUI testParams none
        testWorld).2.entropy = testWorld.entropy :=
  resolve_mac_round_trip testOUI (NewEndpointRaw "node1" "eth1" "00:00:5e:00:53:01") testParams
    none testWorld fn1 [0, 0, 94, 0, 83, 1] (by decide) (by decide) (by decide)

/-- C5, as stated, fails: the string `01:23:45:67:89:ab:cd:ef` is not empty and
does not parse as a 6-octet address, the node is registered, and yet `Resolve`
returns a nil error and an endpoint that carries the eight octets. -/
theorem resolve_accepts_eight_octet_mac :
    testParams.Nodes.lookup "node1" = some (some fn1) ∧
    "01:23:45:67:89:ab:cd:ef" ≠ "" ∧
    (¬ ∃ hw, ParseMAC "01:23:45:67:89:ab:cd:ef" = .ok hw ∧ hw.length = 6) ∧
    ((NewEndpointRaw "node1" "eth1" "01:23:45:67:89:ab:cd:ef").Resolve testOUI testParams none
        testWorld).1 =
      .returned (some (.EndpointVeth
        { Node := some fn1, IfaceName := "eth1", Link := none,
          MAC := [1, 35, 69, 103, 137, 171, 205, 239] })) none := by
  refine ⟨by decide, by decide, ?_, by decide⟩
  rintro ⟨hw, hp, hl⟩
  have h8 : ParseMAC "01:23:45:67:89:ab:cd:ef" = .ok [1, 35, 69, 103, 137, 171, 205, 239] := by
    decide
  rw [h8] at hp
  cases hp
  simp at hl

/-- C5, amended: for a raw endpoint whose node name is a key of the registry and
whose MAC field is not empty, if `net.ParseMAC` rejects the string then `Resolve`
returns a nil endpoint and the `invalid MAC address` error of the parser, with
nothing registered; and whenever `Resolve` returns a nil error the string parses
as an address of 6, 8 or 20 octets. -/
theorem resolve_declared_mac (ClabOUI : OUI) (er : EndpointRaw) (params : ResolveParams)
    (l : Option LinkRef) (w : World) (node : Option Node)
    (hn : params.Nodes.lookup er.Node = some node) (hne : er.MAC ≠ "") :
    ((∀ hw, ParseMAC er.MAC ≠ .ok hw) →
      er.Resolve ClabOUI params l w =
        (.returned none (some (.addrError "invalid MAC address" er.MAC)), w)) ∧
    (∀ e, (er.Resolve ClabOUI params l w).1 = .returned e none →
      ∃ hw, ParseMAC er.MAC = .ok hw ∧
        (hw.length = 6 ∨ hw.length = 8 ∨ hw.length = 20)) := by
  constructor
  · intro hrej
    apply Resolve_of_mac_error ClabOUI er params l w w node _ hn
    simp [hne, ParseMAC_not_ok er.MAC hrej]
  · intro e hres
    cases hp : ParseMAC er.MAC with
    | ok hw => exact ⟨hw, rfl, ParseMAC_length er.MAC hw hp⟩
    | error err =>
      rw [Resolve_of_mac_error ClabOUI er params l w w node err hn (by simp [hne, hp])] at hres
      cases hres

theorem resolve_declared_mac_witness :
    ((∀ hw, ParseMAC "not-a-mac" ≠ .ok hw) →
      (NewEndpointRaw "node1" "eth1" "not-a-mac").Resolve testOUI testParams none testWorld =
        (.returned none (some (.addrError "invalid MAC address" "not-a-mac")), testWorld)) ∧
    (∀ e, ((NewEndpointRaw "node1" "eth1" "not-a-mac").Resolve testOUI testParams none
        testWorld).1 = .returned e none →
      ∃ hw, ParseMAC "not-a-mac" = .ok hw ∧
        (hw.length = 6 ∨ hw.length = 8 ∨ hw.length = 20)) :=
  resolve_declared_mac testOUI (NewEndpointRaw "node1" "eth1" "not-a-mac") testParams none
    testWorld (some fn1) (by decide) (by decide)

/-! ## Registration with the node -/

/-- C6: a call of `Resolve` that returns a nil error against node `n` has made
exactly one more call of `AddEndpoint`, on `n` and with the returned endpoint;
and after any sequence of calls the number of endpoints registered with a node
has grown by the number of successful resolutions against that node in the
sequence, so by nothing for a node that none of them resolved against. -/
theorem resolve_registers_once (ClabOUI : OUI) :
    (∀ (er : EndpointRaw) (params : ResolveParams) (l : Option LinkRef) (w w1 : World)
        (n : Node) (e : Option Endpoint),
      params.Nodes.lookup er.Node = some (some n) →
      er.Resolve ClabOUI params l w = (.returned e none, w1) →
      w1.added = w.added ++ [(n, e)]) ∧
    (∀ (calls : List Call) (w : World) (n : Node),
      ((runCalls ClabOUI calls w).2.endpointsOf n).length =
        (w.endpointsOf n).length + countResolved n calls (runCalls ClabOUI calls w).1) := by
  constructor
  · intro er params l w w1 n e hn hres
    rcases Resolve_cases ClabOUI er params l w with
      ⟨h0, _⟩ | ⟨node, err, w2, _, _, h⟩ | ⟨w2, _, _, h⟩ | ⟨k, m, w2, hk, hadd, h⟩
    · rw [hn] at h0
      cases h0
    · rw [h] at hres
      cases hres
    · rw [h] at hres
      cases hres
    · rw [hn] at hk
      cases hk
      rw [h] at hres
      cases hres
      simp [Node.AddEndpoint, hadd]
  · intro calls
    induction calls with
    | nil =>
      intro w n
      simp [runCalls, countResolved]
    | cons c rest ih =>
      intro w n
      have hstep := Resolve_count ClabOUI c w n
      have hrest := ih (c.er.Resolve ClabOUI c.params c.l w).2 n
      rw [runCalls_cons]
      simp only [countResolved]
      omega

/-! ## What a resolved endpoint carries -/

/-- C7, as stated, fails: with a nil link passed in, `Resolve` returns a nil
error and an endpoint whose `Link` is nil. -/
theorem resolve_nil_link_endpoint :
    ∃ e, ((NewEndpointRaw "node1" "eth1" "").Resolve testOUI testParams none testWorld).1 =
        .returned (some e) none ∧
      e.generic.Link = none :=
  ⟨.EndpointVeth
      { Node := some fn1, IfaceName := "eth1", Link := none, MAC := [170, 193, 171, 1, 2, 3] },
    by decide, rfl⟩

/-- C7, amended: an endpoint that `Resolve` returns with a nil error has as its
node the non-nil node that the registry holds under `er.Node`, as its interface
name `er.Iface`, and as its link exactly the `l` passed in, which is non-nil
exactly when `l` is. -/
theorem resolve_binds_node_iface_link (ClabOUI : OUI) (er : EndpointRaw)
    (params : ResolveParams) (l : Option LinkRef) (w : World) (e : Endpoint)
    (h : (er.Resolve ClabOUI params l w).1 = .returned (some e) none) :
    ∃ n, params.Nodes.lookup er.Node = some (some n) ∧ e.generic.Node = some n ∧
      e.generic.IfaceName = er.Iface ∧ e.generic.Link = l := by
  rcases Resolve_cases ClabOUI er params l w with
    ⟨_, err, h0⟩ | ⟨node, err, w2, _, _, h0⟩ | ⟨w2, _, _, h0⟩ | ⟨k, m, w2, hk, _, h0⟩
  · rw [h0] at h
    cases h
  · rw [h0] at h
    cases h
  · rw [h0] at h
    cases h
  · rw [h0] at h
    simp only [Outcome.returned.injEq, and_true] at h
    have hg := dispatch_generic _ _ e h
    exact ⟨k, hk, by rw [hg], by rw [hg], by rw [hg]⟩

theorem resolve_binds_node_iface_link_witness :
    ∃ n, testParams.Nodes.lookup (NewEndpointRaw "node2" "eth2" "").Node = some (some n) ∧
      testEndpoint.generic.Node = some n ∧
      testEndpoint.generic.IfaceName = (NewEndpointRaw "node2" "eth2" "").Iface ∧
      testEndpoint.generic.Link = some { addr := 7 } :=
  resolve_binds_node_iface_link testOUI (NewEndpointRaw "node2" "eth2" "") testParams
    (some { addr := 7 }) testWorld testEndpoint (by decide)

/-! ## Brief form -/

/-- C9: the brief form of a raw veth link has as many endpoint strings as the
link has endpoints, in the same order, the one at each index being the node
name, a colon and the interface name of the raw endpoint at that index; and its
`LinkCommonParams` are those of the raw link. -/
theorem toLinkBriefRaw_fidelity (r : LinkVEthRaw) :
    r.ToLinkBriefRaw.Endpoints.length = r.Endpoints.length ∧
    (∀ i : Nat, r.ToLinkBriefRaw.Endpoints[i]? =
      (r.Endpoints[i]?).map (fun e => e.Node ++ ":" ++ e.Iface)) ∧
    r.ToLinkBriefRaw.LinkCommonParams = r.LinkCommonParams := by
  refine ⟨?_, ?_, rfl⟩
  · simp [LinkVEthRaw.ToLinkBriefRaw, foldl_brief]
  · intro i
    simp [LinkVEthRaw.ToLinkBriefRaw, foldl_brief]

/-! ## Generated MAC addresses -/

/-- C10: for a raw endpoint with an empty MAC whose node is registered with a
supported backend kind, when the generator gives an address `Resolve` returns a
nil error and an endpoint with that address, which has six octets, each below
256, the first three being those of `ClabOUI`; when the generator fails `Resolve`
returns the error of the generator and a nil endpoint. -/
theorem resolve_generated_mac (ClabOUI : OUI) (er : EndpointRaw) (params : ResolveParams)
    (l : Option LinkRef) (w : World) (n : Node)
    (hn : params.Nodes.lookup er.Node = some (some n))
    (hsup : n.GetLinkEndpointType = .Bridge ∨ n.GetLinkEndpointType = .Host ∨
      n.GetLinkEndpointType = .Veth)
    (he : er.MAC = "") :
    (∀ m w1, GenMac ClabOUI w = (.ok m, w1) →
      ∃ e, er.Resolve ClabOUI params l w = (.returned (some e) none, n.AddEndpoint (some e) w1) ∧
        e.generic.MAC = m ∧ m.length = 6 ∧ (∀ b ∈ m, b < 256) ∧
        m.take 3 = [ClabOUI.b0.val, ClabOUI.b1.val, ClabOUI.b2.val]) ∧
    (∀ err w1, GenMac ClabOUI w = (.error err, w1) →
      er.Resolve ClabOUI params l w = (.returned none (some err), w1)) := by
  refine ⟨?_, ?_⟩
  · intro m w1 hm
    have hshape : m.length = 6 ∧ (∀ b ∈ m, b < 256) ∧
        m.take 3 = [ClabOUI.b0.val, ClabOUI.b1.val, ClabOUI.b2.val] := by
      unfold GenMac at hm
      split at hm
      · cases hm
      · cases hm
      · cases hm
        refine ⟨rfl, ?_, rfl⟩
        intro b hb
        simp only [List.mem_cons, List.mem_singleton, List.not_mem_nil, or_false] at hb
        rcases hb with h | h | h | h | h | h <;> subst h <;> omega
    rw [Resolve_of_generated ClabOUI er params l w w1 n m hn he hm]
    rcases hsup with h | h | h <;> (rw [h]; exact ⟨_, rfl, rfl, hshape⟩)
  · intro err w1 hm
    exact Resolve_of_mac_error ClabOUI er params l w w1 (some n) err hn (by simp [he, hm])

theorem resolve_generated_mac_witness :
    (∀ m w1, GenMac testOUI testWorld = (.ok m, w1) →
      ∃ e, (NewEndpointRaw "node1" "eth1" "").Resolve testOUI testParams none testWorld =
          (.returned (some e) none, fn1.AddEndpoint (some e) w1) ∧
        e.generic.MAC = m ∧ m.length = 6 ∧ (∀ b ∈ m, b < 256) ∧
        m.take 3 = [testOUI.b0.val, testOUI.b1.val, testOUI.b2.val]) ∧
    (∀ err w1, GenMac testOUI testWorld = (.error err, w1) →
      (NewEndpointRaw "node1" "eth1" "").Resolve testOUI testParams none testWorld =
        (.returned none (some err), w1)) :=
  resolve_generated_mac testOUI (NewEndpointRaw "node1" "eth1" "") testParams none testWorld fn1
    (by decide) (by decide) (by decide)

/-! ## Resolution of a veth link -/

theorem GenMac_of_draw (oui : OUI) (w : World) (d : Nat × Nat × Nat)
    (rest : List (Option (Nat × Nat × Nat))) (h : w.entropy = some d :: rest) :
    GenMac oui w =
      (.ok [oui.b0.val, oui.b1.val, oui.b2.val, d.1 % 256, d.2.1 % 256, d.2.2 % 256],
        { w with entropy := rest }) := by
  obtain ⟨r0, r1, r2⟩ := d
  simp [GenMac, h]

theorem dispatch_veth (g : EndpointGeneric) :
    dispatch LinkEndpointType.Veth g = some (.EndpointVeth g) := by
  rfl

/-- The endpoint loop on endpoints that all name a registered veth node: every
one resolves, as long as each generation the loop asks for succeeds. -/
theorem resolveLoop_veth (ClabOUI : OUI) (params : ResolveParams) :
    ∀ (eps : List EndpointRaw) (l : LinkVEth) (w : World),
      (∀ er ∈ eps, ∃ n, params.Nodes.lookup er.Node = some (some n) ∧
        n.GetLinkEndpointType = .Veth ∧ (er.MAC = "" ∨ ∃ hw, ParseMAC er.MAC = .ok hw)) →
      (∀ i, i < (eps.filter (fun er => decide (er.MAC = ""))).length →
        ∃ d, w.entropy[i]? = some (some d)) →
      ∃ new w1, LinkVEthRaw.resolveLoop ClabOUI params l eps w =
          (.returned (some { l with Endpoints := l.Endpoints ++ new }) none, w1) ∧
        List.Forall₂ (fun er e => ∃ g n, e = some (.EndpointVeth g) ∧
          params.Nodes.lookup er.Node = some (some n) ∧ g.Node = some n ∧
          g.IfaceName = er.Iface ∧ g.Link = some l.self) eps new := by
  intro eps
  induction eps with
  | nil =>
    intro l w _ _
    exact ⟨[], w, by simp [LinkVEthRaw.resolveLoop], List.Forall₂.nil⟩
  | cons er rest ih =>
    intro l w hnodes hgen
    obtain ⟨n, hn, hk, hmac⟩ := hnodes er (List.mem_cons_self er rest)
    have hrest : ∀ er' ∈ rest, ∃ n, params.Nodes.lookup er'.Node = some (some n) ∧
        n.GetLinkEndpointType = .Veth ∧ (er'.MAC = "" ∨ ∃ hw, ParseMAC er'.MAC = .ok hw) :=
      fun er' h' => hnodes er' (List.mem_cons_of_mem er h')
    -- the call on the first endpoint succeeds; `w1` is the world it leaves
    have hstep : ∃ m w1, er.Resolve ClabOUI params (some l.self) w =
        (.returned (some (.EndpointVeth
            { Node := some n, IfaceName := er.Iface, Link := some l.self, MAC := m })) none, w1) ∧
        ∀ i, i < (rest.filter (fun er => decide (er.MAC = ""))).length →
          ∃ d, w1.entropy[i]? = some (some d) := by
      by_cases he : er.MAC = ""
      · obtain ⟨d, hd⟩ := hgen 0 (by simp [List.filter_cons, he])
        cases hent : w.entropy with
        | nil => simp [hent] at hd
        | cons x tl =>
          rw [hent] at hd
          simp only [List.getElem?_cons_zero, Option.some.injEq] at hd
          subst hd
          have hg := GenMac_of_draw ClabOUI w d tl hent
          have hres := Resolve_of_generated ClabOUI er params (some l.self) w _ n _ hn he hg
          rw [hk, dispatch_veth] at hres
          refine ⟨_, _, hres, ?_⟩
          intro i hi
          obtain ⟨d', hd'⟩ := hgen (i + 1) (by simp [List.filter_cons, he]; omega)
          rw [hent] at hd'
          exact ⟨d', by simpa [Node.AddEndpoint] using hd'⟩
      · have hp : ∃ hw, ParseMAC er.MAC = .ok hw := by
          rcases hmac with h | h
          · exact absurd h he
          · exact h
        obtain ⟨hw, hp⟩ := hp
        have hres := Resolve_of_parsed ClabOUI er params (some l.self) w n hw hn he hp
        rw [hk, dispatch_veth] at hres
        refine ⟨_, _, hres, ?_⟩
        intro i hi
        obtain ⟨d', hd'⟩ := hgen i (by simpa [List.filter_cons, he] using hi)
        exact ⟨d', by simpa [Node.AddEndpoint] using hd'⟩
    obtain ⟨m, w1, hres, hgen1⟩ := hstep
    obtain ⟨new, w2, hloop, hall⟩ :=
      ih { l with Endpoints := l.Endpoints ++ [some (.EndpointVeth
        { Node := some n, IfaceName := er.Iface, Link := some l.self, MAC := m })] } w1 hrest hgen1
    refine ⟨some (.EndpointVeth
        { Node := some n, IfaceName := er.Iface, Link := some l.self, MAC := m }) :: new, w2, ?_,
      List.Forall₂.cons ⟨_, n, rfl, hn, rfl, rfl, rfl⟩ hall⟩
    simp only [LinkVEthRaw.resolveLoop, hres, hloop, List.append_assoc, List.singleton_append]

/-- C8, as stated, fails: both endpoints of the raw link of the test name a
registered veth node and declare no MAC, and yet `Resolve` returns an error and
no link when the generator fails on the second endpoint. -/
theorem link_resolve_generation_failure :
    (∀ er ∈ testRaw.Endpoints, ∃ n, testParams.Nodes.lookup er.Node = some (some n) ∧
      n.GetLinkEndpointType = .Veth ∧ (er.MAC = "" ∨ ∃ hw, ParseMAC er.MAC = .ok hw)) ∧
    (testRaw.Resolve testOUI testParams
        { entropy := [some (1, 2, 3), none], added := [], nextLink := 0 }).1 =
      .returned none (some (.errorString "MAC generation failed")) := by
  refine ⟨?_, by decide⟩
  intro er her
  simp only [testRaw, List.mem_cons, List.mem_singleton, List.not_mem_nil, or_false] at her
  rcases her with h | h <;> subst h
  · exact ⟨fn1, by decide, by decide, Or.inl (by decide)⟩
  · exact ⟨fn2, by decide, by decide, Or.inl (by decide)⟩

/-- C8, amended: when every endpoint of a raw veth link names a node registered
with backend kind Veth and declares no MAC or one that parses, and the
generator succeeds for every endpoint that declares none, `Resolve` returns a
nil error and a link with the `LinkCommonParams` of the raw link and as many
endpoints, in the same order, each an `EndpointVeth` bound to the node and the
interface name of the raw endpoint at its index, and to the link itself. -/
theorem link_resolve_veth (ClabOUI : OUI) (r : LinkVEthRaw) (params : ResolveParams)
    (w : World)
    (hnodes : ∀ er ∈ r.Endpoints, ∃ n, params.Nodes.lookup er.Node = some (some n) ∧
      n.GetLinkEndpointType = .Veth ∧ (er.MAC = "" ∨ ∃ hw, ParseMAC er.MAC = .ok hw))
    (hgen : ∀ i, i < (r.Endpoints.filter (fun er => decide (er.MAC = ""))).length →
      ∃ d, w.entropy[i]? = some (some d)) :
    ∃ lnk w1, r.Resolve ClabOUI params w = (.returned (some lnk) none, w1) ∧
      lnk.LinkCommonParams = r.LinkCommonParams ∧
      lnk.Endpoints.length = r.Endpoints.length ∧
      List.Forall₂ (fun er e => ∃ g n, e = some (.EndpointVeth g) ∧
        params.Nodes.lookup er.Node = some (some n) ∧ g.Node = some n ∧
        g.IfaceName = er.Iface ∧ g.Link = some lnk.self) r.Endpoints lnk.Endpoints := by
  obtain ⟨new, w1, hloop, hall⟩ := resolveLoop_veth ClabOUI params r.Endpoints
    { self := { addr := w.nextLink }, LinkCommonParams := r.LinkCommonParams, Endpoints := [] }
    { w with nextLink := w.nextLink + 1 } hnodes hgen
  refine ⟨_, w1, hloop, rfl, ?_, ?_⟩
  · simpa using hall.length_eq.symm
  · simpa using hall

theorem link_resolve_veth_witness :
    ∃ lnk w1, testRaw.Resolve testOUI testParams testWorld = (.returned (some lnk) none, w1) ∧
      lnk.LinkCommonParams = testRaw.LinkCommonParams ∧
      lnk.Endpoints.length = testRaw.Endpoints.length ∧
      List.Forall₂ (fun er e => ∃ g n, e = some (.EndpointVeth g) ∧
        testParams.Nodes.lookup er.Node = some (some n) ∧ g.Node = some n ∧
        g.IfaceName = er.Iface ∧ g.Link = some lnk.self) testRaw.Endpoints lnk.Endpoints :=
  link_resolve_veth testOUI testRaw testParams testWorld
    (by
      intro er her
      simp only [testRaw, List.mem_cons, List.mem_singleton, List.not_mem_nil, or_false] at her
      rcases her with h | h <;> subst h
      · exact ⟨fn1, by decide, by decide, Or.inl (by decide)⟩
      · exact ⟨fn2, by decide, by decide, Or.inl (by decide)⟩)
    (by
      intro i hi
      have h2 : i < 2 := hi
      match i, h2 with
      | 0, _ => exact ⟨(1, 2, 3), rfl⟩
      | 1, _ => exact ⟨(4, 5, 6), rfl⟩)

/-! ## Link kind tag -/

/-- C11: `GetType` of a raw veth link is `LinkTypeVEth` whatever the common
parameters and the endpoints are, the empty endpoint list included, so any two
raw veth links have the same tag. -/
theorem getType_constant :
    (∀ r : LinkVEthRaw, r.GetType = LinkTypeVEth) ∧
    (∀ (p q : LinkCommonParams) (es fs : List EndpointRaw),
      LinkVEthRaw.GetType { LinkCommonParams := p, Endpoints := es } =
        LinkVEthRaw.GetType { LinkCommonParams := q, Endpoints := fs }) ∧
    testEmptyRaw.GetType = LinkTypeVEth ∧ testRaw.GetType = LinkTypeVEth :=
  ⟨fun _ => rfl, fun _ _ _ _ => rfl, rfl, rfl⟩

/-! ## Order of the failures -/

/-- C12: when `er.Node` is not a key of the registry and the MAC string does not
parse, `Resolve` returns the node-not-found error, which is not the error of the
MAC parser; no entropy is drawn and nothing is registered, and the result is the
same whatever MAC string the raw endpoint carries. -/
theorem resolve_node_error_before_mac (ClabOUI : OUI) (er : EndpointRaw)
    (params : ResolveParams) (l : Option LinkRef) (w : World)
    (hnode : er.Node ∉ params.Nodes.map Prod.fst)
    (hmac : ∀ hw, ParseMAC er.MAC ≠ .ok hw) :
    er.Resolve ClabOUI params l w =
      (.returned none (some (.errorString ("unable to find node " ++ er.Node))), w) ∧
    ParseMAC er.MAC = .error (.addrError "invalid MAC address" er.MAC) ∧
    GoError.errorString ("unable to find node " ++ er.Node) ≠
      .addrError "invalid MAC address" er.MAC ∧
    (∀ mac : String, EndpointRaw.Resolve ClabOUI { er with MAC := mac } params l w =
      er.Resolve ClabOUI params l w) := by
  have hn := lookup_none_of_not_key params er.Node hnode
  refine ⟨Resolve_of_absent ClabOUI er params l w hn, ParseMAC_not_ok er.MAC hmac, ?_, ?_⟩
  · intro h
    cases h
  · intro mac
    rw [Resolve_of_absent ClabOUI er params l w hn,
      Resolve_of_absent ClabOUI { er with MAC := mac } params l w hn]

theorem resolve_node_error_before_mac_witness :
    (NewEndpointRaw "node3" "eth1" "not-a-mac").Resolve testOUI testParams none testWorld =
      (.returned none (some (.errorString ("unable to find node " ++ "node3"))), testWorld) ∧
    ParseMAC "not-a-mac" = .error (.addrError "invalid MAC address" "not-a-mac") ∧
    GoError.errorString ("unable to find node " ++ "node3") ≠
      .addrError "invalid MAC address" "not-a-mac" ∧
    (∀ mac : String,
      EndpointRaw.Resolve testOUI { NewEndpointRaw "node3" "eth1" "not-a-mac" with MAC := mac }
          testParams none testWorld =
        (NewEndpointRaw "node3" "eth1" "not-a-mac").Resolve testOUI testParams none testWorld) :=
  resolve_node_error_before_mac testOUI (NewEndpointRaw "node3" "eth1" "not-a-mac") testParams
    none testWorld (by decide)
    (by
      intro hw h
      have hp : ParseMAC "not-a-mac" = .error (.addrError "invalid MAC address" "not-a-mac") := by
        decide
      have h2 : ParseMAC "not-a-mac" = .ok hw := h
      rw [hp] at h2
      cases h2)

/-! ## No registration on error -/

/-- C13: whenever `Resolve` returns an error, whichever of the node lookup, the
MAC parser and the MAC generator it comes from, the returned endpoint is nil and
`AddEndpoint` has not been called: the log of registrations, and so the endpoints
registered with every node, are the same before and after the call. -/
theorem resolve_error_registers_nothing (ClabOUI : OUI) (er : EndpointRaw)
    (params : ResolveParams) (l : Option LinkRef) (w : World) (e : Option Endpoint)
    (err : GoError)
    (h : (er.Resolve ClabOUI params l w).1 = .returned e (some err)) :
    e = none ∧ (er.Resolve ClabOUI params l w).2.added = w.added ∧
      ∀ n : Node, (er.Resolve ClabOUI params l w).2.endpointsOf n = w.endpointsOf n := by
  have hadd : e = none ∧ (er.Resolve ClabOUI params l w).2.added = w.added := by
    rcases Resolve_cases ClabOUI er params l w with
      ⟨_, err0, h0⟩ | ⟨node, err0, w2, _, hadd, h0⟩ | ⟨w2, _, _, h0⟩ | ⟨k, m, w2, _, _, h0⟩
    · rw [h0] at h ⊢
      cases h
      exact ⟨rfl, rfl⟩
    · rw [h0] at h ⊢
      cases h
      exact ⟨rfl, hadd⟩
    · rw [h0] at h
      cases h
    · rw [h0] at h
      cases h
  refine ⟨hadd.1, hadd.2, ?_⟩
  intro n
  unfold World.endpointsOf
  rw [hadd.2]

theorem resolve_error_registers_nothing_witness :
    (none : Option Endpoint) = none ∧
    ((NewEndpointRaw "node1" "eth1" "not-a-mac").Resolve testOUI testParams none
        testWorld).2.added = testWorld.added ∧
      ∀ n : Node, ((NewEndpointRaw "node1" "eth1" "not-a-mac").Resolve testOUI testParams none
        testWorld).2.endpointsOf n = testWorld.endpointsOf n :=
  resolve_error_registers_nothing testOUI (NewEndpointRaw "node1" "eth1" "not-a-mac") testParams
    none testWorld none (.addrError "invalid MAC address" "not-a-mac") (by decide)

end Links
